import Mathlib

/-!
Shallow embedding of the clinic-reservation backend (`backend/main.go`).

The backend is a set of HTTP handlers, each performing exactly one MongoDB
operation on one of three collections (`users`, `doctor`, `patients`) of the
`hospital` database.  We model the store as three lists of documents, in
insertion order (MongoDB's natural order for these operations), and each
handler as a pure function from a store and the parsed request data to the
new store and the JSON response.

MongoDB semantics used by the handlers, reflected in the model:
* `InsertOne` appends a document to the collection and performs no
  duplicate check (no unique indexes are declared anywhere in the repo);
* `CountDocuments` with an equality filter counts documents whose field is
  exactly (case-sensitively) equal to the value;
* `FindOne` returns the first document matching the filter, in natural order;
* `UpdateOne` modifies at most the first document matching the filter and
  reports success (with `matchedCount = 0`) when nothing matches;
* `$set` of a field replaces that field wholesale;
* `$push` appends one element to the end of an array field;
* `$pull` removes every array element equal to the given value;
* the positional operator `schedule.$` refers to the first array element
  matched by the `schedule: <value>` condition of the filter, i.e. the
  first element equal to that value.

Infrastructure failures (broken connection, bcrypt failure, malformed JSON
bodies) are outside the model: inputs arrive already parsed and the store
operations themselves do not fail, which matches the success-path semantics
the claims are about.  The bcrypt hash is an uninterpreted parameter of
`SignUp`.
-/

namespace ClinicBackend

/-- The `User` struct of `main.go`: `{username, password, email}`. -/
structure User where
  username : String
  password : String
  email : String
deriving DecidableEq, Repr

/-- The `Doctor` struct of `main.go`: `{id, dname, schedule}`. -/
structure Doctor where
  id : String
  dname : String
  schedule : List String
deriving DecidableEq, Repr

/-- The `Patient` struct of `main.go`: `{id, pname, schedule}`. -/
structure Patient where
  id : String
  pname : String
  schedule : List String
deriving DecidableEq, Repr

/-- The three collections of the `hospital` database that the handlers touch:
`users`, `doctor` and `patients`, each a list of documents in insertion
(natural) order. -/
structure Store where
  users : List User
  doctors : List Doctor
  patients : List Patient
deriving DecidableEq, Repr

/-- The JSON responses a handler can produce: HTTP status plus the message or
error string of the `gin.H` payload. -/
inductive Resp where
  | ok (message : String)
  | badRequest (error : String)
  | notFound (error : String)
  | internalError (error : String)
deriving DecidableEq, Repr

/-- MongoDB `UpdateOne` semantics on a collection: apply `f` to the first
document satisfying the filter `p`; when no document matches, the collection
is unchanged (and the call still succeeds). -/
def updateFirst (p : α → Bool) (f : α → α) : List α → List α
  | [] => []
  | d :: ds => if p d then f d :: ds else d :: updateFirst p f ds

/-- MongoDB positional `$set` on an array field with filter `schedule: old`:
replace the first element equal to `old` by `new`; no element equal means no
change. -/
def setFirstEq (old new : String) : List String → List String
  | [] => []
  | x :: xs => if x == old then new :: xs else x :: setFirstEq old new xs

/-- `isUsernameTaken` of `main.go`: `CountDocuments` on `users` with filter
`{username: username}` (exact, case-sensitive match), taken iff the count is
positive. -/
def isUsernameTaken (st : Store) (username : String) : Bool :=
  0 < st.users.countP (fun u => u.username == username)

/-- `SignUp` handler: reject when the username is taken, otherwise hash the
password with bcrypt (modelled by the uninterpreted `hash`) and `InsertOne`
the user. -/
def SignUp (hash : String → String) (st : Store) (newUser : User) : Store × Resp :=
  if isUsernameTaken st newUser.username then
    (st, Resp.badRequest "Username is already taken")
  else
    let stored : User := { newUser with password := hash newUser.password }
    ({ st with users := st.users ++ [stored] }, Resp.ok "User created successfully")

/-- `GetDoctorByID` handler: `FindOne` on `doctor` with filter `{id: doctorID}`;
404 when no document matches. -/
def GetDoctorByID (st : Store) (doctorID : String) : Except Resp Doctor :=
  match st.doctors.find? (fun d => d.id == doctorID) with
  | some d => Except.ok d
  | none => Except.error (Resp.notFound "Doctor not found")

/-- `CreateDoctor` handler: `InsertOne` of the caller-supplied document,
verbatim, with no duplicate-id check. -/
def CreateDoctor (st : Store) (newDoctor : Doctor) : Store × Resp :=
  ({ st with doctors := st.doctors ++ [newDoctor] },
   Resp.ok "Doctor created successfully")

/-- `SetDoctorSchedule` handler: `UpdateOne` on `doctor` with filter
`{id: doctorID}` and update `{$set: {schedule: schedule}}`. -/
def SetDoctorSchedule (st : Store) (doctorID : String) (schedule : List String) :
    Store × Resp :=
  let doctors := updateFirst (fun d => d.id == doctorID)
    (fun d => { d with schedule := schedule }) st.doctors
  ({ st with doctors := doctors }, Resp.ok "Doctor\'s schedule updated successfully")

/-- `BookAppointment` handler: `UpdateOne` on `patients` with filter
`{id: patientID}` and update `{$push: {schedule: newAppointment}}`. -/
def BookAppointment (st : Store) (patientID : String) (newAppointment : String) :
    Store × Resp :=
  let patients := updateFirst (fun p => p.id == patientID)
    (fun p => { p with schedule := p.schedule ++ [newAppointment] }) st.patients
  ({ st with patients := patients }, Resp.ok "Appointment booked successfully")

/-- `UpdateAppointment` handler: `UpdateOne` on `patients` with filter
`{id: patientID, schedule: appointmentID}` and update
`{$set: {schedule.$: updatedAppointment}}` (positional: first array element
equal to `appointmentID`). -/
def UpdateAppointment (st : Store) (patientID appointmentID updatedAppointment : String) :
    Store × Resp :=
  let patients := updateFirst
    (fun p => p.id == patientID && p.schedule.contains appointmentID)
    (fun p => { p with schedule := setFirstEq appointmentID updatedAppointment p.schedule })
    st.patients
  ({ st with patients := patients }, Resp.ok "Appointment updated successfully")

/-- `CancelAppointment` handler: `UpdateOne` on `patients` with filter
`{id: patientID}` and update `{$pull: {schedule: appointmentID}}` (remove all
equal elements). -/
def CancelAppointment (st : Store) (patientID appointmentID : String) : Store × Resp :=
  let patients := updateFirst (fun p => p.id == patientID)
    (fun p => { p with schedule := p.schedule.filter (fun a => a != appointmentID) })
    st.patients
  ({ st with patients := patients }, Resp.ok "Appointment canceled successfully")

/-- One-document frame property for the `doctor` collection: the collection is
unchanged, or exactly one document changed, that document had the targeted id,
and its `id` and `dname` fields are preserved. -/
def DoctorFrame (doctorID : String) (old new : List Doctor) : Prop :=
  new = old ∨ ∃ l₁ d dn l₂, old = l₁ ++ d :: l₂ ∧ new = l₁ ++ dn :: l₂ ∧
    d.id = doctorID ∧ dn.id = d.id ∧ dn.dname = d.dname

/-- One-document frame property for the `patients` collection: the collection is
unchanged, or exactly one document changed, that document had the targeted id,
and its `id` and `pname` fields are preserved. -/
def PatientFrame (patientID : String) (old new : List Patient) : Prop :=
  new = old ∨ ∃ l₁ p pn l₂, old = l₁ ++ p :: l₂ ∧ new = l₁ ++ pn :: l₂ ∧
    p.id = patientID ∧ pn.id = p.id ∧ pn.pname = p.pname

theorem updateFirst_nil (p : α → Bool) (f : α → α) : updateFirst p f [] = [] := rfl

theorem updateFirst_cons (p : α → Bool) (f : α → α) (x : α) (xs : List α) :
    updateFirst p f (x :: xs) =
      if p x then f x :: xs else x :: updateFirst p f xs := rfl

/-- `UpdateOne` with a filter nothing satisfies is a no-op. -/
theorem updateFirst_of_forall_neg (p : α → Bool) (f : α → α) (l : List α)
    (h : ∀ a ∈ l, p a = false) : updateFirst p f l = l := by
  induction l with
  | nil => rfl
  | cons x xs ih =>
    rw [updateFirst_cons, if_neg (by simp [h x (List.mem_cons_self x xs)]),
      ih (fun a ha => h a (List.mem_cons_of_mem x ha))]

/-- `UpdateOne` rewrites exactly the first matching document. -/
theorem updateFirst_append_of_first (p : α → Bool) (f : α → α) (l₁ : List α)
    (a : α) (l₂ : List α) (h₁ : ∀ b ∈ l₁, p b = false) (ha : p a = true) :
    updateFirst p f (l₁ ++ a :: l₂) = l₁ ++ f a :: l₂ := by
  induction l₁ with
  | nil => simp [updateFirst_cons, ha]
  | cons x xs ih =>
    have hx : ¬ p x = true := by simp [h₁ x (List.mem_cons_self x xs)]
    rw [List.cons_append, updateFirst_cons, if_neg hx,
      ih (fun b hb => h₁ b (List.mem_cons_of_mem x hb)), List.cons_append]

/-- When the update function fixes the first matching document, `UpdateOne`
leaves the collection unchanged. -/
theorem updateFirst_eq_self_of_find? (p : α → Bool) (f : α → α) (l : List α)
    (d : α) (hfd : l.find? p = some d) (hf : f d = d) : updateFirst p f l = l := by
  induction l with
  | nil => simp at hfd
  | cons x xs ih =>
    by_cases hx : p x = true
    · rw [List.find?_cons_of_pos _ hx, Option.some_inj] at hfd
      subst hfd
      rw [updateFirst_cons, if_pos hx, hf]
    · rw [List.find?_cons_of_neg _ (by simpa using hx)] at hfd
      rw [updateFirst_cons, if_neg hx, ih hfd]

/-- `FindOne` after `UpdateOne` with the same filter, when the update preserves
the filter, returns the updated first match. -/
theorem find?_updateFirst (p : α → Bool) (f : α → α) (l : List α) (d : α)
    (hf : ∀ a, p a = true → p (f a) = true) (h : l.find? p = some d) :
    (updateFirst p f l).find? p = some (f d) := by
  induction l with
  | nil => simp at h
  | cons x xs ih =>
    by_cases hx : p x = true
    · rw [List.find?_cons_of_pos _ hx, Option.some_inj] at h
      rw [updateFirst_cons, if_pos hx, List.find?_cons_of_pos _ (hf x hx), h]
    · rw [List.find?_cons_of_neg _ (by simpa using hx)] at h
      rw [updateFirst_cons, if_neg hx,
        List.find?_cons_of_neg _ (by simpa using hx), ih h]

/-- `UpdateOne` touches at most one document: either no change, or one matching
document replaced in place. -/
theorem updateFirst_shape (p : α → Bool) (f : α → α) (l : List α) :
    updateFirst p f l = l ∨
    ∃ l₁ a l₂, l = l₁ ++ a :: l₂ ∧ p a = true ∧
      updateFirst p f l = l₁ ++ f a :: l₂ := by
  induction l with
  | nil => exact Or.inl rfl
  | cons x xs ih =>
    by_cases hx : p x = true
    · exact Or.inr ⟨[], x, xs, rfl, hx, by simp [updateFirst_cons, hx]⟩
    · rcases ih with h | ⟨l₁, a, l₂, hl, hpa, hu⟩
      · exact Or.inl (by rw [updateFirst_cons, if_neg hx, h])
      · exact Or.inr ⟨x :: l₁, a, l₂, by simp [hl], hpa,
          by rw [updateFirst_cons, if_neg hx, hu]; simp⟩

theorem setFirstEq_cons (old na x : String) (xs : List String) :
    setFirstEq old na (x :: xs) =
      if x == old then na :: xs else x :: setFirstEq old na xs := rfl

/-- Positional `$set` at the first occurrence: with the first occurrence of
`old` exhibited, exactly that element is replaced. -/
theorem setFirstEq_append (old na : String) (s₁ s₂ : List String)
    (h : old ∉ s₁) : setFirstEq old na (s₁ ++ old :: s₂) = s₁ ++ na :: s₂ := by
  induction s₁ with
  | nil => simp [setFirstEq]
  | cons x xs ih =>
    have hx : ¬(x == old) = true := by
      simp only [beq_iff_eq]
      exact fun hxo => h (hxo ▸ List.mem_cons_self x xs)
    rw [List.cons_append, setFirstEq_cons, if_neg hx,
      ih (fun hm => h (List.mem_cons_of_mem x hm)), List.cons_append]

/-- Any membership yields a first-occurrence decomposition together with the
effect of positional `$set` on it. -/
theorem setFirstEq_of_mem (old na : String) (l : List String) (h : old ∈ l) :
    ∃ s₁ s₂, l = s₁ ++ old :: s₂ ∧ old ∉ s₁ ∧
      setFirstEq old na l = s₁ ++ na :: s₂ := by
  induction l with
  | nil => simp at h
  | cons x xs ih =>
    by_cases hx : x = old
    · subst hx
      exact ⟨[], xs, rfl, by simp, by simp [setFirstEq]⟩
    · have hmem : old ∈ xs := by
        rcases List.mem_cons.mp h with h1 | h2
        · exact absurd h1.symm hx
        · exact h2
      obtain ⟨s₁, s₂, hl, hn, hs⟩ := ih hmem
      refine ⟨x :: s₁, s₂, by simp [hl], ?_, ?_⟩
      · simp only [List.mem_cons, not_or]
        exact ⟨fun hox => hx hox.symm, hn⟩
      · rw [setFirstEq_cons, if_neg (by simpa using hx), hs, List.cons_append]

/-- Unfolding equation for `BookAppointment`. -/
theorem BookAppointment_eq (st : Store) (pid a : String) :
    BookAppointment st pid a =
      ({ st with patients := (updateFirst (fun p => p.id == pid)
          (fun p => { p with schedule := p.schedule ++ [a] }) st.patients) },
       Resp.ok "Appointment booked successfully") := rfl

/-- Unfolding equation for `SetDoctorSchedule`. -/
theorem SetDoctorSchedule_eq (st : Store) (did : String) (sched : List String) :
    SetDoctorSchedule st did sched =
      ({ st with doctors := (updateFirst (fun d => d.id == did)
          (fun d => { d with schedule := sched }) st.doctors) },
       Resp.ok "Doctor\'s schedule updated successfully") := rfl

/-- Unfolding equation for `UpdateAppointment`. -/
theorem UpdateAppointment_eq (st : Store) (pid aid na : String) :
    UpdateAppointment st pid aid na =
      ({ st with patients := (updateFirst
          (fun p => p.id == pid && p.schedule.contains aid)
          (fun p => { p with schedule := setFirstEq aid na p.schedule })
          st.patients) },
       Resp.ok "Appointment updated successfully") := rfl

/-- Unfolding equation for `CancelAppointment`. -/
theorem CancelAppointment_eq (st : Store) (pid aid : String) :
    CancelAppointment st pid aid =
      ({ st with patients := (updateFirst (fun p => p.id == pid)
          (fun p => { p with schedule := p.schedule.filter (fun s => s != aid) })
          st.patients) },
       Resp.ok "Appointment canceled successfully") := rfl

/-- The filter of `UpdateAppointment` on one document, as a Bool test. -/
theorem update_filter_eq_false (pid aid : String) (q : Patient)
    (h : ¬(q.id = pid ∧ aid ∈ q.schedule)) :
    (q.id == pid && q.schedule.contains aid) = false := by
  rw [Bool.and_eq_false_iff]
  by_cases h1 : q.id = pid
  · refine Or.inr ?_
    have h2 : aid ∉ q.schedule := fun hm => h ⟨h1, hm⟩
    simp [List.contains, h2]
  · exact Or.inl (by simpa using h1)

/-- C1: when a user document with the signup request's exact (case-sensitive)
username already exists, `SignUp` answers the "Username is already taken"
error and leaves the store — in particular the users collection — unchanged,
so no second user document with that username is created. -/
theorem SignUp_duplicate_username_rejected (hash : String → String) (st : Store)
    (newUser u : User) (hu : u ∈ st.users) (hname : u.username = newUser.username) :
    SignUp hash st newUser = (st, Resp.badRequest "Username is already taken") := by
  have htaken : isUsernameTaken st newUser.username = true := by
    have hpos : 0 < st.users.countP (fun v => v.username == newUser.username) :=
      List.countP_pos_iff.mpr ⟨u, hu, by simp [hname]⟩
    simpa [isUsernameTaken] using hpos
  simp [SignUp, htaken]

/-- Witness for C1: a store already holding user "alice"; signing up again as
"alice" is rejected and the store is unchanged. -/
theorem SignUp_duplicate_username_rejected_witness :
    SignUp (fun s => s)
        { users := [{ username := "alice", password := "h", email := "a" }],
          doctors := [], patients := [] }
        { username := "alice", password := "pw", email := "b" } =
      ({ users := [{ username := "alice", password := "h", email := "a" }],
         doctors := [], patients := [] },
       Resp.badRequest "Username is already taken") :=
  SignUp_duplicate_username_rejected (fun s => s) _ _
    { username := "alice", password := "h", email := "a" } (by simp) rfl

/-- C4: for a patient present in the store (the first document with the path
id, the one `UpdateOne` targets), booking appends the supplied appointment
string to the end of that patient's schedule, preserving all existing entries
and their order, and reports success. -/
theorem BookAppointment_appends (st : Store) (pid a : String) (p : Patient)
    (h : st.patients.find? (fun q => q.id == pid) = some p) :
    (BookAppointment st pid a).2 = Resp.ok "Appointment booked successfully" ∧
    (BookAppointment st pid a).1.patients.find? (fun q => q.id == pid) =
      some { p with schedule := p.schedule ++ [a] } := by
  exact ⟨rfl, find?_updateFirst _ _ _ _ (fun q hq => hq) h⟩

/-- Witness for C4: booking "A1" then "A2" for patient "p1", whose schedule
starts empty, yields the schedule ["A1", "A2"]. -/
theorem BookAppointment_appends_witness :
    (BookAppointment
        (BookAppointment
          { users := [], doctors := [],
            patients := [{ id := "p1", pname := "n", schedule := [] }] }
          "p1" "A1").1
        "p1" "A2").1.patients.find? (fun q => q.id == "p1") =
      some { id := "p1", pname := "n", schedule := ["A1", "A2"] } :=
  (BookAppointment_appends
    (BookAppointment
      { users := [], doctors := [],
        patients := [{ id := "p1", pname := "n", schedule := [] }] }
      "p1" "A1").1
    "p1" "A2" { id := "p1", pname := "n", schedule := ["A1"] } rfl).2

/-- C6: `CreateDoctor` inserts the caller-supplied document verbatim with the
caller-supplied id and performs no duplicate-id check: when the store already
holds a doctor with the same id, the call still succeeds and afterwards both
documents with that id are in the collection (at least two documents carry
the id). -/
theorem CreateDoctor_no_duplicate_check (st : Store) (d0 dnew : Doctor)
    (h0 : d0 ∈ st.doctors) (hid : d0.id = dnew.id) :
    (CreateDoctor st dnew).2 = Resp.ok "Doctor created successfully" ∧
    d0 ∈ (CreateDoctor st dnew).1.doctors ∧
    dnew ∈ (CreateDoctor st dnew).1.doctors ∧
    2 ≤ (CreateDoctor st dnew).1.doctors.countP (fun x => x.id == dnew.id) := by
  refine ⟨rfl, ?_, ?_, ?_⟩
  · exact List.mem_append_left _ h0
  · exact List.mem_append_right _ (List.mem_singleton.mpr rfl)
  · have h1 : 1 ≤ st.doctors.countP (fun x => x.id == dnew.id) :=
      List.countP_pos_iff.mpr ⟨d0, h0, by simp [hid]⟩
    have h2 : (CreateDoctor st dnew).1.doctors.countP (fun x => x.id == dnew.id) =
        st.doctors.countP (fun x => x.id == dnew.id) + 1 := by
      show (st.doctors ++ [dnew]).countP (fun x => x.id == dnew.id) = _
      simp [List.countP_append, List.countP_cons]
    omega

/-- Witness for C6: creating a second doctor with the already-present id "d1"
succeeds and leaves two documents with id "d1" in the collection. -/
theorem CreateDoctor_no_duplicate_check_witness :
    (CreateDoctor
        { users := [], patients := [],
          doctors := [{ id := "d1", dname := "old", schedule := ["Mon"] }] }
        { id := "d1", dname := "new", schedule := [] }).2 =
        Resp.ok "Doctor created successfully" ∧
    { id := "d1", dname := "old", schedule := ["Mon"] } ∈
      (CreateDoctor
        { users := [], patients := [],
          doctors := [{ id := "d1", dname := "old", schedule := ["Mon"] }] }
        { id := "d1", dname := "new", schedule := [] }).1.doctors ∧
    { id := "d1", dname := "new", schedule := [] } ∈
      (CreateDoctor
        { users := [], patients := [],
          doctors := [{ id := "d1", dname := "old", schedule := ["Mon"] }] }
        { id := "d1", dname := "new", schedule := [] }).1.doctors ∧
    2 ≤ (CreateDoctor
        { users := [], patients := [],
          doctors := [{ id := "d1", dname := "old", schedule := ["Mon"] }] }
        { id := "d1", dname := "new", schedule := [] }).1.doctors.countP
          (fun x => x.id == "d1") :=
  CreateDoctor_no_duplicate_check
    { users := [], patients := [],
      doctors := [{ id := "d1", dname := "old", schedule := ["Mon"] }] }
    { id := "d1", dname := "old", schedule := ["Mon"] }
    { id := "d1", dname := "new", schedule := [] } (by simp) rfl

/-- C7 counterexample: a signup request whose password is the empty string is
not rejected — on an empty store, `SignUp` (with the hash function left as
the identity) reports success and a user document is created. -/
theorem SignUp_empty_password_not_rejected :
    (SignUp (fun s => s) { users := [], doctors := [], patients := [] }
        { username := "u", password := "", email := "e" }).2 =
      Resp.ok "User created successfully" ∧
    (SignUp (fun s => s) { users := [], doctors := [], patients := [] }
        { username := "u", password := "", email := "e" }).1.users =
      [{ username := "u", password := "", email := "e" }] := by
  exact ⟨rfl, rfl⟩

/-- C7 amended: `SignUp` performs no password validation at all: a signup
request with an empty password and a username no existing user document
carries succeeds, storing the user with the (hashed) empty password. -/
theorem SignUp_empty_password_accepted (hash : String → String) (st : Store)
    (newUser : User) (hpw : newUser.password = "")
    (hfree : ∀ u ∈ st.users, u.username ≠ newUser.username) :
    SignUp hash st newUser =
      ({ st with users := st.users ++ [{ newUser with password := hash "" }] },
       Resp.ok "User created successfully") := by
  have hfreeB : isUsernameTaken st newUser.username = false := by
    have hz : st.users.countP (fun v => v.username == newUser.username) = 0 :=
      List.countP_eq_zero.mpr (fun u hu => by simp [hfree u hu])
    simp [isUsernameTaken, hz]
  simp [SignUp, hfreeB, hpw]

/-- Witness for C7's amended claim: on an empty store, signing up with an
empty password succeeds and stores the user. -/
theorem SignUp_empty_password_accepted_witness :
    SignUp (fun s => s) { users := [], doctors := [], patients := [] }
        { username := "u", password := "", email := "e" } =
      ({ users := [{ username := "u", password := "", email := "e" }],
         doctors := [], patients := [] },
       Resp.ok "User created successfully") :=
  SignUp_empty_password_accepted (fun s => s)
    { users := [], doctors := [], patients := [] }
    { username := "u", password := "", email := "e" } rfl (by simp)
/-- C2: for the patient the cancel targets (the first document carrying the
path id), `CancelAppointment` reports success, removes every schedule element
equal to the path-supplied identifier (not just one), and when no element
equals the identifier it still succeeds with the store unchanged. -/
theorem CancelAppointment_pulls_all (st : Store) (pid aid : String) (p : Patient)
    (h : st.patients.find? (fun q => q.id == pid) = some p) :
    (CancelAppointment st pid aid).2 = Resp.ok "Appointment canceled successfully" ∧
    (CancelAppointment st pid aid).1.patients.find? (fun q => q.id == pid) =
      some { p with schedule := p.schedule.filter (fun s => s != aid) } ∧
    aid ∉ p.schedule.filter (fun s => s != aid) ∧
    (aid ∉ p.schedule →
      CancelAppointment st pid aid = (st, Resp.ok "Appointment canceled successfully")) := by
  refine ⟨rfl, find?_updateFirst _ _ _ _ (fun q hq => hq) h, by simp, ?_⟩
  intro hna
  have hfp : p.schedule.filter (fun s => s != aid) = p.schedule :=
    List.filter_eq_self.mpr (fun x hx => by
      simp only [bne_iff_ne, ne_eq]
      exact fun hxa => hna (hxa ▸ hx))
  have hself : updateFirst (fun q => q.id == pid)
      (fun q => { q with schedule := q.schedule.filter (fun s => s != aid) })
      st.patients = st.patients :=
    updateFirst_eq_self_of_find? _ _ _ p h (by
      show { p with schedule := p.schedule.filter (fun s => s != aid) } = p
      rw [hfp])
  rw [CancelAppointment_eq, hself]

/-- Witness for C2: cancelling "A1" for patient "p1" whose schedule is
["A1", "B", "A1"] removes both occurrences, leaving ["B"]. -/
theorem CancelAppointment_pulls_all_witness :
    (CancelAppointment
        { users := [], doctors := [],
          patients := [{ id := "p1", pname := "n", schedule := ["A1", "B", "A1"] }] }
        "p1" "A1").1.patients.find? (fun q => q.id == "p1") =
      some { id := "p1", pname := "n", schedule := ["B"] } := by
  have hth := CancelAppointment_pulls_all
    { users := [], doctors := [],
      patients := [{ id := "p1", pname := "n", schedule := ["A1", "B", "A1"] }] }
    "p1" "A1" { id := "p1", pname := "n", schedule := ["A1", "B", "A1"] } rfl
  simpa using hth.2.1

/-- C5: setting a doctor's schedule replaces the schedule array wholesale:
for the doctor the update targets (the first document carrying the path id),
the call reports success and a subsequent fetch by id returns that doctor
with exactly the supplied ordered list as schedule, all previous entries
discarded. -/
theorem SetDoctorSchedule_replaces_wholesale (st : Store) (did : String)
    (sched : List String) (d : Doctor)
    (h : st.doctors.find? (fun x => x.id == did) = some d) :
    (SetDoctorSchedule st did sched).2 =
      Resp.ok "Doctor\'s schedule updated successfully" ∧
    GetDoctorByID (SetDoctorSchedule st did sched).1 did =
      Except.ok { d with schedule := sched } := by
  refine ⟨rfl, ?_⟩
  have hfind : (SetDoctorSchedule st did sched).1.doctors.find? (fun x => x.id == did) =
      some { d with schedule := sched } :=
    find?_updateFirst _ _ _ _ (fun x hx => hx) h
  simp only [GetDoctorByID, hfind]

/-- Witness for C5: doctor "d1" with previous schedule ["Tue"]; after setting
["Mon", "Wed"], fetching "d1" returns exactly that list. -/
theorem SetDoctorSchedule_replaces_wholesale_witness :
    GetDoctorByID
        (SetDoctorSchedule
          { users := [], patients := [],
            doctors := [{ id := "d1", dname := "dr", schedule := ["Tue"] }] }
          "d1" ["Mon", "Wed"]).1 "d1" =
      Except.ok { id := "d1", dname := "dr", schedule := ["Mon", "Wed"] } :=
  (SetDoctorSchedule_replaces_wholesale
    { users := [], patients := [],
      doctors := [{ id := "d1", dname := "dr", schedule := ["Tue"] }] }
    "d1" ["Mon", "Wed"] { id := "d1", dname := "dr", schedule := ["Tue"] } rfl).2

/-- C3: when the first patient document matching the update's filter is
exhibited (path id, schedule containing the exact appointment identifier),
`UpdateAppointment` replaces one matching schedule element with the new
value, leaving every entry before and after it unchanged, and reports
success; when no patient matches the filter, it reports success with the
store untouched. -/
theorem UpdateAppointment_replaces_match (pid aid na : String) :
    (∀ st l₁ p l₂, st.patients = l₁ ++ p :: l₂ →
      (∀ q ∈ l₁, ¬(q.id = pid ∧ aid ∈ q.schedule)) →
      p.id = pid → aid ∈ p.schedule →
      ∃ s₁ s₂, p.schedule = s₁ ++ aid :: s₂ ∧ aid ∉ s₁ ∧
        UpdateAppointment st pid aid na =
          ({ st with patients := l₁ ++ { p with schedule := s₁ ++ na :: s₂ } :: l₂ },
           Resp.ok "Appointment updated successfully")) ∧
    (∀ st, (∀ q ∈ st.patients, ¬(q.id = pid ∧ aid ∈ q.schedule)) →
      UpdateAppointment st pid aid na =
        (st, Resp.ok "Appointment updated successfully")) := by
  constructor
  · intro st l₁ p l₂ hst hl₁ hpid hmem
    obtain ⟨s₁, s₂, hdec, hns, hset⟩ := setFirstEq_of_mem aid na p.schedule hmem
    refine ⟨s₁, s₂, hdec, hns, ?_⟩
    have hup : updateFirst
        (fun q => q.id == pid && q.schedule.contains aid)
        (fun q => { q with schedule := setFirstEq aid na q.schedule })
        st.patients = l₁ ++ { p with schedule := s₁ ++ na :: s₂ } :: l₂ := by
      rw [hst, updateFirst_append_of_first _ _ _ _ _
        (fun b hb => update_filter_eq_false pid aid b (hl₁ b hb))
        (by simp [hpid, List.contains, hmem])]
      simp only [hset]
    rw [UpdateAppointment_eq, hup]
  · intro st hall
    have hup : updateFirst
        (fun q => q.id == pid && q.schedule.contains aid)
        (fun q => { q with schedule := setFirstEq aid na q.schedule })
        st.patients = st.patients :=
      updateFirst_of_forall_neg _ _ _
        (fun q hq => update_filter_eq_false pid aid q (hall q hq))
    rw [UpdateAppointment_eq, hup]

/-- Witness for C3: updating appointment "A1" of patient "p1" with schedule
["B", "A1", "C"] to "A1-rescheduled" replaces exactly that entry. -/
theorem UpdateAppointment_replaces_match_witness :
    ∃ s₁ s₂, (["B", "A1", "C"] : List String) = s₁ ++ "A1" :: s₂ ∧ "A1" ∉ s₁ ∧
      UpdateAppointment
          { users := [], doctors := [],
            patients := [{ id := "p1", pname := "n", schedule := ["B", "A1", "C"] }] }
          "p1" "A1" "A1-rescheduled" =
        ({ users := [], doctors := [],
           patients := [] ++ { id := "p1", pname := "n", schedule := s₁ ++ "A1-rescheduled" :: s₂ } :: [] },
         Resp.ok "Appointment updated successfully") :=
  (UpdateAppointment_replaces_match "p1" "A1" "A1-rescheduled").1
    { users := [], doctors := [],
      patients := [{ id := "p1", pname := "n", schedule := ["B", "A1", "C"] }] }
    [] { id := "p1", pname := "n", schedule := ["B", "A1", "C"] } []
    rfl (by simp) rfl (by simp)
/-- Frame shape of `UpdateOne` on the `patients` collection: when the update
function preserves `id` and `pname` and the filter implies the targeted id,
at most one document changes and its `id` and `pname` are preserved. -/
theorem patientFrame_updateFirst (pid : String) (pr : Patient → Bool)
    (f : Patient → Patient) (l : List Patient)
    (hid : ∀ q, (f q).id = q.id) (hname : ∀ q, (f q).pname = q.pname)
    (hpred : ∀ q, pr q = true → q.id = pid) :
    PatientFrame pid l (updateFirst pr f l) := by
  rcases updateFirst_shape pr f l with hsame | ⟨l₁, q, l₂, hl, hq, hu⟩
  · exact Or.inl hsame
  · exact Or.inr ⟨l₁, q, f q, l₂, hl, hu, hpred q hq, hid q, hname q⟩

/-- Frame shape of `UpdateOne` on the `doctor` collection. -/
theorem doctorFrame_updateFirst (did : String) (pr : Doctor → Bool)
    (f : Doctor → Doctor) (l : List Doctor)
    (hid : ∀ q, (f q).id = q.id) (hname : ∀ q, (f q).dname = q.dname)
    (hpred : ∀ q, pr q = true → q.id = did) :
    DoctorFrame did l (updateFirst pr f l) := by
  rcases updateFirst_shape pr f l with hsame | ⟨l₁, q, l₂, hl, hq, hu⟩
  · exact Or.inl hsame
  · exact Or.inr ⟨l₁, q, f q, l₂, hl, hu, hpred q hq, hid q, hname q⟩

/-- C8: when a patient's schedule holds the appointment identifier more than
once (a first occurrence after `s₁` and another inside `s₂`),
`UpdateAppointment` replaces only the first occurrence with the new value;
the tail `s₂` — with every later occurrence — is kept verbatim, so the
identifier is still present afterwards. -/
theorem UpdateAppointment_first_occurrence_only (st : Store) (pid aid na : String)
    (l₁ : List Patient) (p : Patient) (l₂ : List Patient) (s₁ s₂ : List String)
    (hst : st.patients = l₁ ++ p :: l₂)
    (hl₁ : ∀ q ∈ l₁, ¬(q.id = pid ∧ aid ∈ q.schedule))
    (hpid : p.id = pid)
    (hsched : p.schedule = s₁ ++ aid :: s₂)
    (hfirst : aid ∉ s₁) (hlater : aid ∈ s₂) :
    (UpdateAppointment st pid aid na).1.patients =
      l₁ ++ { p with schedule := s₁ ++ na :: s₂ } :: l₂ ∧
    aid ∈ s₁ ++ na :: s₂ := by
  have hmem : aid ∈ p.schedule := by
    rw [hsched]
    exact List.mem_append_right _ (List.mem_cons_self aid s₂)
  have hup : updateFirst (fun q => q.id == pid && q.schedule.contains aid)
      (fun q => { q with schedule := setFirstEq aid na q.schedule })
      st.patients = l₁ ++ { p with schedule := s₁ ++ na :: s₂ } :: l₂ := by
    rw [hst, updateFirst_append_of_first _ _ _ _ _
      (fun b hb => update_filter_eq_false pid aid b (hl₁ b hb))
      (by simp [hpid, List.contains, hmem])]
    have hset : setFirstEq aid na p.schedule = s₁ ++ na :: s₂ := by
      rw [hsched]
      exact setFirstEq_append aid na s₁ s₂ hfirst
    simp only [hset]
  exact ⟨hup, List.mem_append_right _ (List.mem_cons_of_mem _ hlater)⟩

/-- Witness for C8: patient "p1" with schedule ["A1", "A1"]; updating "A1" to
"X" gives ["X", "A1"] — the second occurrence survives. -/
theorem UpdateAppointment_first_occurrence_only_witness :
    (UpdateAppointment
        { users := [], doctors := [],
          patients := [{ id := "p1", pname := "n", schedule := ["A1", "A1"] }] }
        "p1" "A1" "X").1.patients =
      [] ++ { id := "p1", pname := "n", schedule := [] ++ "X" :: ["A1"] } :: [] ∧
    "A1" ∈ ([] : List String) ++ "X" :: ["A1"] :=
  UpdateAppointment_first_occurrence_only
    { users := [], doctors := [],
      patients := [{ id := "p1", pname := "n", schedule := ["A1", "A1"] }] }
    "p1" "A1" "X" [] { id := "p1", pname := "n", schedule := ["A1", "A1"] } []
    [] ["A1"] rfl (by simp) rfl rfl (by simp) (by simp)

/-- C9: when no patient document carries the path-supplied id, the book
operation — and likewise update and cancel — reports success and leaves the
entire store unchanged: no patient document is created and no schedule is
modified. -/
theorem missing_patient_noop (st : Store) (pid aid a na : String)
    (h : ∀ q ∈ st.patients, q.id ≠ pid) :
    BookAppointment st pid a = (st, Resp.ok "Appointment booked successfully") ∧
    UpdateAppointment st pid aid na =
      (st, Resp.ok "Appointment updated successfully") ∧
    CancelAppointment st pid aid =
      (st, Resp.ok "Appointment canceled successfully") := by
  have hfalse : ∀ q ∈ st.patients, (q.id == pid) = false := fun q hq => by
    simp [h q hq]
  refine ⟨?_, ?_, ?_⟩
  · rw [BookAppointment_eq, updateFirst_of_forall_neg _ _ _ hfalse]
  · rw [UpdateAppointment_eq, updateFirst_of_forall_neg _ _ _
      (fun q hq => by rw [hfalse q hq, Bool.false_and])]
  · rw [CancelAppointment_eq, updateFirst_of_forall_neg _ _ _ hfalse]

/-- Witness for C9: a store whose only patient is "p2"; booking, updating and
cancelling for the absent id "p1" all succeed and change nothing. -/
theorem missing_patient_noop_witness :
    BookAppointment
        { users := [], doctors := [],
          patients := [{ id := "p2", pname := "n", schedule := ["A"] }] }
        "p1" "A1" =
      ({ users := [], doctors := [],
         patients := [{ id := "p2", pname := "n", schedule := ["A"] }] },
       Resp.ok "Appointment booked successfully") ∧
    UpdateAppointment
        { users := [], doctors := [],
          patients := [{ id := "p2", pname := "n", schedule := ["A"] }] }
        "p1" "A1" "B1" =
      ({ users := [], doctors := [],
         patients := [{ id := "p2", pname := "n", schedule := ["A"] }] },
       Resp.ok "Appointment updated successfully") ∧
    CancelAppointment
        { users := [], doctors := [],
          patients := [{ id := "p2", pname := "n", schedule := ["A"] }] }
        "p1" "A1" =
      ({ users := [], doctors := [],
         patients := [{ id := "p2", pname := "n", schedule := ["A"] }] },
       Resp.ok "Appointment canceled successfully") :=
  missing_patient_noop
    { users := [], doctors := [],
      patients := [{ id := "p2", pname := "n", schedule := ["A"] }] }
    "p1" "A1" "A1" "B1" (by simp)

/-- C10: every mutating schedule operation modifies at most one document of
one collection: the other two collections are returned as-is, every document
other than (at most) one carrying the path-supplied id is unchanged, and the
`id` and name fields of the changed document are preserved. -/
theorem schedule_ops_frame (st : Store) (did pid aid a na : String)
    (sched : List String) :
    (DoctorFrame did st.doctors (SetDoctorSchedule st did sched).1.doctors ∧
      (SetDoctorSchedule st did sched).1.patients = st.patients ∧
      (SetDoctorSchedule st did sched).1.users = st.users) ∧
    (PatientFrame pid st.patients (BookAppointment st pid a).1.patients ∧
      (BookAppointment st pid a).1.doctors = st.doctors ∧
      (BookAppointment st pid a).1.users = st.users) ∧
    (PatientFrame pid st.patients (UpdateAppointment st pid aid na).1.patients ∧
      (UpdateAppointment st pid aid na).1.doctors = st.doctors ∧
      (UpdateAppointment st pid aid na).1.users = st.users) ∧
    (PatientFrame pid st.patients (CancelAppointment st pid aid).1.patients ∧
      (CancelAppointment st pid aid).1.doctors = st.doctors ∧
      (CancelAppointment st pid aid).1.users = st.users) := by
  refine ⟨⟨?_, rfl, rfl⟩, ⟨?_, rfl, rfl⟩, ⟨?_, rfl, rfl⟩, ⟨?_, rfl, rfl⟩⟩
  · exact doctorFrame_updateFirst did _ _ st.doctors (fun q => rfl) (fun q => rfl)
      (fun q hq => by simpa using hq)
  · exact patientFrame_updateFirst pid _ _ st.patients (fun q => rfl) (fun q => rfl)
      (fun q hq => by simpa using hq)
  · exact patientFrame_updateFirst pid _ _ st.patients (fun q => rfl) (fun q => rfl)
      (fun q hq => by
        have hand := (Bool.and_eq_true _ _).mp hq
        simpa using hand.1)
  · exact patientFrame_updateFirst pid _ _ st.patients (fun q => rfl) (fun q => rfl)
      (fun q hq => by simpa using hq)

end ClinicBackend
